import Mathlib

/-!
# external-dns-webhook-inwx: zone directory, record matcher, change applier

Shallow embedding of `provider/client_wrapper.go` (the cached, paginated zone
listing `ClientWrapper.getZones`) and of the provider logic exercised by
`provider/inwx_test.go` (`getZone`, `getRecIDs`, `ApplyChanges` and the mock
provider, which are defined in files that are not part of the sources and are
modelled from the specification).

Conventions of the embedding

* Go `string` is `String`; suffix tests and trimming go through `String.data`.
* Go `int` is `Int`.  The page counter of `getZones` starts at 1 and grows by
  one per request, so it cannot wrap before the accumulated slice does.
* `time.Time` is an `Int` clock reading in nanoseconds, `time.Duration` an
  `Int` number of nanoseconds saturated to the signed 64-bit range, as
  `Time.Sub` does.
* A Go slice that may be `nil` is an `Option (List _)`: `none` is the nil
  slice, `some []` the empty non-nil slice `[]string{}`.
* The unbounded `for { ... }` loop of `getZones` is a fuel-indexed function;
  a run that is still looping when the fuel is used up has `result = none`.
* A value returned through a pointer (`*[]string`) is the value itself; the
  sharing of the backing array between the cache and the returned slice is
  not modelled.

Layout: the definitions come first (the code, then the vocabulary of the
statements), the theorems after them.
-/

namespace Inwx

/-! ## goinwx types used by `client_wrapper.go` -/

/-- Request of `Nameservers.ListWithParams` (the fields the wrapper sets). -/
structure NameserverListRequest where
  Domain : String
  Page : Int
  PageLimit : Int
  deriving DecidableEq, Repr

/-- One entry of `NameserverListResponse.Domains`; the wrapper reads `Domain`. -/
structure NameserverDomain where
  Domain : String
  deriving DecidableEq, Repr

/-- Response of `Nameservers.ListWithParams`: the reported total and one page. -/
structure NameserverListResponse where
  Count : Int
  Domains : List NameserverDomain
  deriving DecidableEq, Repr

/-- The listing capability of `*inwx.Client` consumed by `getZones`: the answer
to a request is a response or an error.  Within one call of `getZones` every
request carries a different page number, so a function of the request
describes an arbitrary (also stateful) provider. -/
abbrev Client := NameserverListRequest → Except String NameserverListResponse

/-! ## Time -/

/-- Largest `time.Duration`. -/
def maxDuration : Int := 2 ^ 63 - 1

/-- Smallest `time.Duration`. -/
def minDuration : Int := -(2 ^ 63)

/-- `time.Since(t)` evaluated when the clock reads `now`: the difference,
saturated to the range of `time.Duration`. -/
def timeSince (now t : Int) : Int :=
  if now - t > maxDuration then maxDuration
  else if now - t < minDuration then minDuration
  else now - t

/-- `const zonesCacheTTL = 5 * time.Minute`, in nanoseconds. -/
def zonesCacheTTL : Int := 5 * (60 * 1000000000)

/-! ## ClientWrapper -/

/-- `type ClientWrapper struct`. -/
structure ClientWrapper where
  client : Client
  zonesCache : Option (List String)
  zonesCacheTime : Int

/-- `fmt.Errorf("failed to list nameserver zones (page %d): %w", page, err)`. -/
def listError (page : Int) (err : String) : String :=
  s!"failed to list nameserver zones (page {page}): {err}"

/-- Outcome of the pagination loop: what the enclosing function returns when the
loop ends (`none` while it is still running), and the requests sent, in order. -/
structure LoopRun where
  result : Option (Except String (List String))
  requests : List NameserverListRequest

/-- The `for { ... }` loop of `getZones` (lines 52-68), started with the
accumulated `zones` and the current `page`. -/
def listLoop (client : Client) : Nat → List String → Int → LoopRun
  | 0, _, _ => { result := none, requests := [] }
  | fuel + 1, zones, page =>
    let request : NameserverListRequest := { Domain := "*", Page := page, PageLimit := 100 }
    match client request with
    | .error err => { result := some (.error (listError page err)), requests := [request] }
    | .ok response =>
      let zones := zones ++ response.Domains.map (fun domain => domain.Domain)
      if response.Domains.length = 0 ∨ (zones.length : Int) ≥ response.Count then
        { result := some (.ok zones), requests := [request] }
      else
        let rest := listLoop client fuel zones (page + 1)
        { result := rest.result, requests := request :: rest.requests }

/-- Outcome of one call of `getZones`: the returned value (`none` when the
loop has not ended within the fuel), the wrapper afterwards, and the listing
requests sent, in order. -/
structure ZonesRun where
  result : Option (Except String (List String))
  wrapper : ClientWrapper
  requests : List NameserverListRequest

/-- `func (w *ClientWrapper) getZones() (*[]string, error)`.
`now` is the clock reading used by `time.Since` on line 45 and `fetched` the
reading of `time.Now()` on line 71. -/
def getZones (fuel : Nat) (now fetched : Int) (w : ClientWrapper) : ZonesRun :=
  if w.zonesCache ≠ none ∧ timeSince now w.zonesCacheTime < zonesCacheTTL then
    { result := some (.ok (w.zonesCache.getD [])), wrapper := w, requests := [] }
  else
    let run := listLoop w.client fuel [] 1
    match run.result with
    | some (.ok zones) =>
      { result := some (.ok zones),
        wrapper := { w with zonesCache := some zones, zonesCacheTime := fetched },
        requests := run.requests }
    | other => { result := other, wrapper := w, requests := run.requests }

/-! ## Vocabulary for the pagination claims -/

/-- The request `getZones` sends for a page. -/
def listRequest (page : Int) : NameserverListRequest :=
  { Domain := "*", Page := page, PageLimit := 100 }

/-- Zone names on page `i` of the provider (nothing when the request fails). -/
def pageNames (client : Client) (i : Nat) : List String :=
  match client (listRequest i) with
  | .ok response => response.Domains.map (fun domain => domain.Domain)
  | .error _ => []

/-- Names of pages `1 .. k`, concatenated in order. -/
def accumulated (client : Client) : Nat → List String
  | 0 => []
  | k + 1 => accumulated client k ++ pageNames client (k + 1)

/-- Page `i` is answered without error. -/
def pageSucceeds (client : Client) (i : Nat) : Bool :=
  match client (listRequest i) with
  | .ok _ => true
  | .error _ => false

/-- The loop's exit test holds at page `k`: the page is empty, or the names of
pages `1 .. k` are at least as many as the total reported by page `k`. -/
def stopsAt (client : Client) (k : Nat) : Bool :=
  match client (listRequest k) with
  | .ok response =>
    decide (response.Domains.length = 0 ∨
      ((accumulated client k).length : Int) ≥ response.Count)
  | .error _ => false

/-- Requests for the pages `j + 1, ..., j + n`, in order. -/
def pageRequests (j : Nat) : Nat → List NameserverListRequest
  | 0 => []
  | n + 1 => listRequest ((j : Int) + 1) :: pageRequests (j + 1) n

/-- A provider holding the zone names `L`, serving them in pages of `p` names
and always reporting the total `L.length`. -/
def pagedProvider (L : List String) (p : Nat) : Client := fun request =>
  .ok { Count := L.length,
        Domains := ((L.drop ((request.Page.toNat - 1) * p)).take p).map NameserverDomain.mk }

/-- A provider with three zones on two pages. -/
def twoPageProvider : Client := fun request =>
  if request.Page = 1 then
    .ok { Count := 3, Domains := [⟨"bar.org"⟩, ⟨"baz.org"⟩] }
  else if request.Page = 2 then
    .ok { Count := 3, Domains := [⟨"subdomain.bar.org"⟩] }
  else
    .ok { Count := 3, Domains := [] }

/-- A provider whose first page succeeds and whose later pages fail. -/
def failingSecondPage : Client := fun request =>
  if request.Page = 1 then
    .ok { Count := 3, Domains := [⟨"bar.org"⟩, ⟨"baz.org"⟩] }
  else
    .error "timeout"

/-- A provider with no zones at all. -/
def emptyProvider : Client := fun _ => .ok { Count := 0, Domains := [] }

/-- A wrapper whose cache was filled at clock reading 0. -/
def staleWrapper (client : Client) : ClientWrapper :=
  { client := client, zonesCache := some ["old.org"], zonesCacheTime := 0 }

/-- A wrapper that has never listed zones: the zero value of the struct. -/
def freshWrapper (client : Client) : ClientWrapper :=
  { client := client, zonesCache := none, zonesCacheTime := 0 }

/-! ## Endpoints, provider records and strings

`endpoint.Endpoint` and `inwx.NameserverRecord` are declared outside the
repository; the fields below are the ones `inwx_test.go` sets and reads.  The
field `Type` of the Go struct is `Typ` here. -/

/-- `endpoint.Endpoint` of external-dns. -/
structure Endpoint where
  DNSName : String
  Targets : List String
  RecordType : String
  RecordTTL : Int
  deriving DecidableEq, Repr

/-- `inwx.NameserverRecord` of goinwx. -/
structure NameserverRecord where
  ID : String
  Name : String
  Typ : String
  Content : String
  TTL : Int
  deriving DecidableEq, Repr

/-- `strings.HasSuffix`. -/
def hasSuffix (s suffix : String) : Bool :=
  suffix.data.isSuffixOf s.data

/-- `strings.TrimSuffix`. -/
def trimSuffix (s suffix : String) : String :=
  if hasSuffix s suffix then ⟨s.data.take (s.data.length - suffix.data.length)⟩ else s

/-! ## Zone resolution and record matching -/

/-- Modelled from the spec: the zone test of section 4.1 used by `getZone`,
"`name` equals the zone or `name` ends with `"." + zone`". -/
def inZone (name zone : String) : Bool :=
  name == zone || hasSuffix name ("." ++ zone)

/-- Modelled from the spec: `getZone(zones, endpoint)`, called by
`testEndpointZoneName` and defined in a file that is not part of the sources.
Section 4.1: among all known zones select the one such that the name equals
the zone or ends with `"." + zone`; if several match, the longest; if none,
no zone, which the test reads as the empty string.  The second value the Go
function returns is discarded by the test and is not modelled. -/
def getZone (zones : List String) (ep : Endpoint) : String :=
  zones.foldl
    (fun best zone => if inZone ep.DNSName zone && best.length < zone.length then zone else best)
    ""

/-- Modelled from the spec: the zone-relative name of section 3, "`name` with
the zone suffix stripped (and the trailing separator removed), or empty string
if `name == zone`".  The function that computes it is not part of the
sources. -/
def relativeName (name zone : String) : String :=
  if name = zone then "" else trimSuffix (trimSuffix name zone) "."

/-- Modelled from the spec: the scan inside `getRecIDs`, section 4.2, over the
records of a zone in listing order: the ID of every record whose name and type
match and whose content is one of the targets. -/
def matchingIDs (name typ : String) (targets : List String) :
    List NameserverRecord → List String
  | [] => []
  | record :: rest =>
    if record.Name = name ∧ record.Typ = typ ∧ record.Content ∈ targets then
      record.ID :: matchingIDs name typ targets rest
    else
      matchingIDs name typ targets rest

/-- Modelled from the spec: `getRecIDs(zone, records, endpoint)`, called by
`testGetRecIDs` and defined in a file that is not part of the sources.
Section 4.2: for each target find a record of the zone whose name and type
match and whose content equals that target, and collect its ID; the IDs come
in the order in which the records are scanned; a target without a record is
absent from the result and is not an error. -/
def getRecIDs (zone : String) (records : List NameserverRecord) (ep : Endpoint) :
    Except String (List String) :=
  .ok (matchingIDs (relativeName ep.DNSName zone) ep.RecordType ep.Targets records)

/-- The zones of `testEndpointZoneName`. -/
def testZones : List String := ["bar.org", "baz.org", "subdomain.bar.org"]

/-- An `A` endpoint with one target, as in `testEndpointZoneName`. -/
def addressEndpoint (name target : String) : Endpoint :=
  { DNSName := name, Targets := [target], RecordType := "A", RecordTTL := 0 }

/-- The records of `testGetRecIDs`. -/
def testRecords : List NameserverRecord :=
  [ { ID := "10", Name := "foo", Typ := "TXT", TTL := 0,
      Content := "heritage=external-dns,external-dns/owner=default,external-dns/resource=service/default/nginx" },
    { ID := "11", Name := "foo", Typ := "A", Content := "5.5.5.5", TTL := 0 },
    { ID := "12", Name := "", Typ := "A", Content := "5.5.5.5", TTL := 0 },
    { ID := "13", Name := "", Typ := "A", Content := "5.5.5.6", TTL := 0 } ]

/-! ## The change applier and the provider it drives

`ApplyChanges`, the mock provider of the tests (`MockClientWrapper`) and the
types `plan.Changes` and `inwx.NameserverRecordRequest` are defined outside the
sources.  The provider implements the record operations of
`AbstractClientWrapper` (`client_wrapper.go`, lines 18-26). -/

/-- `inwx.NameserverRecordRequest` of goinwx, the fields a record mutation carries. -/
structure NameserverRecordRequest where
  Domain : String
  Name : String
  Typ : String
  Content : String
  TTL : Int
  deriving DecidableEq, Repr

/-- `plan.Changes` of external-dns. -/
structure Changes where
  Create : List Endpoint := []
  UpdateOld : List Endpoint := []
  UpdateNew : List Endpoint := []
  Delete : List Endpoint := []

/-- Modelled from the spec: the provider behind `AbstractClientWrapper` as the
tests use it (`MockClientWrapper`, whose source is not part of the sources).
Section 6 and `testApplyChanges`: the managed zones, the records of every zone
in listing order, and the counter from which `createRecord` assigns the IDs
`"0"`, `"1"`, ... -/
structure MockClientWrapper where
  zones : List String
  db : String → List NameserverRecord
  nextID : Nat

/-- Modelled from the spec: `getZones` of the mock provider, section 6
`listZones`; it never fails. -/
def MockClientWrapper.getZones (w : MockClientWrapper) : Except String (List String) :=
  .ok w.zones

/-- Modelled from the spec: `getRecords` of the mock provider, section 6
`listRecords(zone)`; it never fails. -/
def MockClientWrapper.getRecords (w : MockClientWrapper) (domain : String) :
    Except String (List NameserverRecord) :=
  .ok (w.db domain)

/-- Modelled from the spec: `createRecord` of the mock provider, section 6
`createRecord(zone, relativeName, type, content, ttl) -> recordID`: the new
record is listed last in its zone under the next free ID. -/
def MockClientWrapper.createRecord (w : MockClientWrapper) (request : NameserverRecordRequest) :
    Except String MockClientWrapper :=
  .ok { w with
    db := fun zone =>
      if zone = request.Domain then
        w.db zone ++ [{ ID := toString w.nextID, Name := request.Name, Typ := request.Typ,
                        Content := request.Content, TTL := request.TTL }]
      else w.db zone
    nextID := w.nextID + 1 }

/-- Modelled from the spec: the fields `updateRecord` of the mock provider
overwrites, section 6 `updateRecord(recordID, content, ttl, [name])`. -/
def overwrite (request : NameserverRecordRequest) (record : NameserverRecord) :
    NameserverRecord :=
  { record with Name := request.Name, Content := request.Content, TTL := request.TTL }

/-- Modelled from the spec: `updateRecord` of the mock provider: the record
with the given ID is overwritten in place. -/
def MockClientWrapper.updateRecord (w : MockClientWrapper) (recID : String)
    (request : NameserverRecordRequest) : Except String MockClientWrapper :=
  .ok { w with
    db := fun zone => (w.db zone).map (fun record =>
      if record.ID = recID then overwrite request record else record) }

/-- Modelled from the spec: `deleteRecord` of the mock provider, section 6
`deleteRecord(recordID)`. -/
def MockClientWrapper.deleteRecord (w : MockClientWrapper) (recID : String) :
    Except String MockClientWrapper :=
  .ok { w with db := fun zone => (w.db zone).filter (fun record => record.ID ≠ recID) }

/-- Modelled from the spec: the calls `ApplyChanges` makes for one batch entry,
in order; section 4.3, failure semantics: a failing call aborts the entry and
its error is reported, the mutations made before it stay. -/
def runCalls {α : Type} (call : MockClientWrapper → α → Except String MockClientWrapper) :
    MockClientWrapper → List α → MockClientWrapper × Option String
  | w, [] => (w, none)
  | w, a :: rest =>
    match call w a with
    | .ok w' => runCalls call w' rest
    | .error err => (w, some err)

/-- The record has the given name and type. -/
def sameKey (name typ : String) (record : NameserverRecord) : Bool :=
  decide (record.Name = name ∧ record.Typ = typ)

/-- The record has the given name, type and content. -/
def sameContent (name typ content : String) (record : NameserverRecord) : Bool :=
  decide (record.Name = name ∧ record.Typ = typ ∧ record.Content = content)

/-- Modelled from the spec: the mutation request `ApplyChanges` sends for one
target of an entry: zone, relative name, type, content and TTL (section 6). -/
def targetRequest (zone name : String) (ep : Endpoint) (target : String) :
    NameserverRecordRequest :=
  { Domain := zone, Name := name, Typ := ep.RecordType, Content := target,
    TTL := ep.RecordTTL }

/-- Modelled from the spec: the Create rule of section 4.3 for one target.  The
zone's current records are read for the target (step 2: "fresh read; no
caching at this layer", the applier "must see its own prior writes"; section 9
leaves the interleaving across the targets of one entry open), then: a record
with identical content means no mutation; otherwise a record with the same
name and type (the first one listed) is updated in place, content and TTL
overwritten; otherwise a new record is created. -/
def createTarget (zone name : String) (ep : Endpoint) (w : MockClientWrapper)
    (target : String) : Except String MockClientWrapper :=
  match w.getRecords zone with
  | .error err => .error err
  | .ok records =>
    if records.any (sameContent name ep.RecordType target) then
      .ok w
    else
      match records.find? (sameKey name ep.RecordType) with
      | some existing => w.updateRecord existing.ID (targetRequest zone name ep target)
      | none => w.createRecord (targetRequest zone name ep target)

/-- Modelled from the spec: one Create entry, section 4.3: resolve the zone and
skip the entry when there is none; apply the Create rule to every target, in
order, each one evaluated on its own against the zone's records. -/
def applyCreate (zones : List String) (w : MockClientWrapper) (ep : Endpoint) :
    MockClientWrapper × Option String :=
  let zone := getZone zones ep
  if zone = "" then (w, none)
  else runCalls (createTarget zone (relativeName ep.DNSName zone) ep) w ep.Targets

/-- Modelled from the spec: one Delete entry, section 4.3: the matched IDs are
deleted one by one; no match is a silent no-op. -/
def applyDelete (zones : List String) (w : MockClientWrapper) (ep : Endpoint) :
    MockClientWrapper × Option String :=
  let zone := getZone zones ep
  if zone = "" then (w, none)
  else
    match w.getRecords zone with
    | .error err => (w, some err)
    | .ok records =>
      match getRecIDs zone records ep with
      | .error err => (w, some err)
      | .ok recIDs => runCalls (fun w recID => w.deleteRecord recID) w recIDs

/-- Modelled from the spec: one Update pair `(updateOld, updateNew)`, section
4.3: the records matching `updateOld` are mutated to carry the content, TTL and
name of `updateNew`; when no record matches `updateOld`, the Create rule is
applied to `updateNew`.  The spec does not say which target a matched record
receives when there are several: the i-th matched ID takes the i-th target. -/
def applyUpdate (zones : List String) (w : MockClientWrapper) (pair : Endpoint × Endpoint) :
    MockClientWrapper × Option String :=
  let zone := getZone zones pair.1
  if zone = "" then (w, none)
  else
    match w.getRecords zone with
    | .error err => (w, some err)
    | .ok records =>
      match getRecIDs zone records pair.1 with
      | .error err => (w, some err)
      | .ok [] => applyCreate zones w pair.2
      | .ok recIDs =>
        runCalls (fun w (change : String × String) =>
            w.updateRecord change.1
              (targetRequest zone (relativeName pair.2.DNSName zone) pair.2 change.2))
          w (recIDs.zip pair.2.Targets)

/-- Outcome of `ApplyChanges`: the provider afterwards and the errors collected;
the Go function returns `nil` exactly when `errors` is empty. -/
structure Applied where
  provider : MockClientWrapper
  errors : List String

/-- Modelled from the spec: the entries of one kind processed by `ApplyChanges`,
in order; section 4.3: an entry that fails is reported and the following
entries are still processed. -/
def applyEntries {α : Type}
    (apply : MockClientWrapper → α → MockClientWrapper × Option String) :
    Applied → List α → Applied
  | done, [] => done
  | done, entry :: rest =>
    applyEntries apply
      { provider := (apply done.provider entry).1,
        errors := done.errors ++ (apply done.provider entry).2.toList } rest

/-- Modelled from the spec: `INWXProvider.ApplyChanges`, whose source is not
part of the sources.  Section 4.3: the zones are listed, then the deletes, the
updates and the creates are processed in this order.  The domain filter of
section 6 is applied by the caller and the session bracket (`login`, `logout`)
does not touch the records; neither is modelled. -/
def ApplyChanges (w : MockClientWrapper) (changes : Changes) : Applied :=
  match w.getZones with
  | .error err => { provider := w, errors := [err] }
  | .ok zones =>
    let deleted := applyEntries (applyDelete zones) { provider := w, errors := [] } changes.Delete
    let updated :=
      applyEntries (applyUpdate zones) deleted (changes.UpdateOld.zip changes.UpdateNew)
    applyEntries (applyCreate zones) updated changes.Create

/-- Modelled from the spec: the provider `NewINWXProviderWithMockClient` starts
from: no zones, no records. -/
def MockClientWrapper.new : MockClientWrapper :=
  { zones := [], db := fun _ => [], nextID := 0 }

/-- Modelled from the spec: `CreateZone` of the mock provider, called by the
tests to add a managed zone. -/
def MockClientWrapper.CreateZone (w : MockClientWrapper) (zone : String) : MockClientWrapper :=
  { w with zones := w.zones ++ [zone] }

/-- The provider of the `ApplyChanges` tests: the zone `example.com`, no records. -/
def exampleProvider : MockClientWrapper :=
  MockClientWrapper.new.CreateZone "example.com"

/-- An `A` endpoint with TTL 60, as in the `ApplyChanges` tests. -/
def testEndpoint (name : String) (targets : List String) : Endpoint :=
  { DNSName := name, Targets := targets, RecordType := "A", RecordTTL := 60 }

/-- The provider after `foo.example.com A [1.1.1.1]` has been created in the
empty zone `example.com`, as in `testCreateIsIdempotent`. -/
def oneRecordProvider : MockClientWrapper :=
  (ApplyChanges exampleProvider
    { Create := [testEndpoint "foo.example.com" ["1.1.1.1"]] }).provider

/-! ## Auxiliary notions for the change applier -/

/-- The first record with the given name and type carries the given content and
TTL; the other records are unchanged. -/
def setFirstL (name typ content : String) (ttl : Int) :
    List NameserverRecord → List NameserverRecord
  | [] => []
  | record :: rest =>
    if sameKey name typ record then
      { record with Name := name, Content := content, TTL := ttl } :: rest
    else
      record :: setFirstL name typ content ttl rest

/-- The effect of a one-target create on the records of its zone; `newID` is
the ID a created record gets. -/
def opL (name typ target : String) (ttl : Int) (newID : String)
    (records : List NameserverRecord) : List NameserverRecord :=
  if records.any (sameContent name typ target) then records
  else if records.any (sameKey name typ) then setFirstL name typ target ttl records
  else records ++ [{ ID := newID, Name := name, Typ := typ, Content := target, TTL := ttl }]

/-- A create entry with its zone resolved and its single target. -/
structure Op where
  zone : String
  name : String
  typ : String
  target : String
  ttl : Int

/-- The effect of a resolved one-target create on the provider. -/
def posOp (o : Op) (w : MockClientWrapper) : MockClientWrapper :=
  { zones := w.zones
    db := fun zone =>
      if zone = o.zone then opL o.name o.typ o.target o.ttl (toString w.nextID) (w.db zone)
      else w.db zone
    nextID := if (w.db o.zone).any (sameKey o.name o.typ) then w.nextID else w.nextID + 1 }

/-- The provider after the Create rule has been applied to one target. -/
def createTargetState (zone name : String) (ep : Endpoint) (w : MockClientWrapper)
    (target : String) : MockClientWrapper :=
  match createTarget zone name ep w target with
  | .ok w' => w'
  | .error _ => w

/-- A sequence of resolved one-target creates applied to the provider. -/
def run (ops : List Op) (w : MockClientWrapper) : MockClientWrapper :=
  ops.foldl (fun w o => posOp o w) w

theorem timeSince_lt_ttl_iff (now t : Int) :
    timeSince now t < zonesCacheTTL ↔ now - t < zonesCacheTTL := by
  unfold timeSince zonesCacheTTL maxDuration minDuration
  split_ifs <;> omega

theorem listLoop_succ (client : Client) (fuel : Nat) (zones : List String) (page : Int) :
    listLoop client (fuel + 1) zones page =
      match client (listRequest page) with
      | .error err =>
        { result := some (.error (listError page err)), requests := [listRequest page] }
      | .ok response =>
        if response.Domains.length = 0 ∨
            ((zones ++ response.Domains.map (fun domain => domain.Domain)).length : Int)
              ≥ response.Count then
          { result := some (.ok (zones ++ response.Domains.map (fun domain => domain.Domain))),
            requests := [listRequest page] }
        else
          { result := (listLoop client fuel
              (zones ++ response.Domains.map (fun domain => domain.Domain)) (page + 1)).result,
            requests := listRequest page :: (listLoop client fuel
              (zones ++ response.Domains.map (fun domain => domain.Domain)) (page + 1)).requests } := by
  rfl

theorem listLoop_error_of_mem (client : Client) :
    ∀ (fuel : Nat) (zones : List String) (page : Int) (request : NameserverListRequest)
      (cause : String),
      request ∈ (listLoop client fuel zones page).requests →
      client request = .error cause →
      (listLoop client fuel zones page).result
        = some (.error (listError request.Page cause)) := by
  intro fuel
  induction fuel with
  | zero => intro zones page request cause h _; simp [listLoop] at h
  | succ fuel ih =>
    intro zones page request cause h hc
    rw [listLoop_succ] at h ⊢
    cases hp : client (listRequest page) with
    | error err =>
      simp only [hp] at h ⊢
      simp at h
      subst h
      rw [hp] at hc
      cases hc
      rfl
    | ok response =>
      simp only [hp] at h ⊢
      split_ifs at h ⊢ with hstop
      · simp at h
        subst h
        rw [hp] at hc
        cases hc
      · simp at h
        rcases h with h | h
        · subst h
          rw [hp] at hc
          cases hc
        · exact ih _ _ _ _ h hc

/-- Started after `j` pages with their names accumulated, the loop ends at the
first page `k > j` at which the exit test holds. -/
theorem listLoop_stops (client : Client) (k : Nat) :
    ∀ (d j fuel : Nat), j + d + 1 = k → d + 1 ≤ fuel →
      (∀ i, j < i → i ≤ k → pageSucceeds client i = true) →
      stopsAt client k = true →
      (∀ i, j < i → i < k → stopsAt client i = false) →
      listLoop client fuel (accumulated client j) ((j : Int) + 1)
        = { result := some (.ok (accumulated client k)), requests := pageRequests j (d + 1) } := by
  intro d
  induction d with
  | zero =>
    intro j fuel hk hfuel hok hstop _
    obtain ⟨fuel, rfl⟩ : ∃ f, fuel = f + 1 := ⟨fuel - 1, by omega⟩
    subst hk
    rw [listLoop_succ]
    have hreq : listRequest ((j : Int) + 1) = listRequest ((j + 0 + 1 : Nat) : Int) := by
      simp
    unfold stopsAt at hstop
    rw [← hreq] at hstop
    cases hp : client (listRequest ((j : Int) + 1)) with
    | error err => rw [hp] at hstop; simp at hstop
    | ok response =>
      rw [hp] at hstop
      simp only [Nat.add_zero, accumulated, pageNames] at hstop ⊢
      push_cast at hstop ⊢
      rw [hp] at hstop ⊢
      simp only [decide_eq_true_eq] at hstop
      simp only []
      rw [if_pos hstop]
      simp [pageRequests]
  | succ d ih =>
    intro j fuel hk hfuel hok hstop hfirst
    obtain ⟨fuel, rfl⟩ : ∃ f, fuel = f + 1 := ⟨fuel - 1, by omega⟩
    rw [listLoop_succ]
    have hns := hfirst (j + 1) (by omega) (by omega)
    have hsucc := hok (j + 1) (by omega) (by omega)
    unfold stopsAt at hns
    unfold pageSucceeds at hsucc
    push_cast at hns hsucc
    cases hp : client (listRequest ((j : Int) + 1)) with
    | error err => rw [hp] at hsucc; simp at hsucc
    | ok response =>
      rw [hp] at hns
      simp only [accumulated, pageNames] at hns
      push_cast at hns
      rw [hp] at hns
      simp only [decide_eq_false_iff_not] at hns
      simp only []
      rw [if_neg hns]
      have hacc : accumulated client j ++ response.Domains.map (fun domain => domain.Domain)
          = accumulated client (j + 1) := by
        simp only [accumulated, pageNames]
        push_cast
        rw [hp]
      rw [hacc]
      have := ih (j + 1) fuel (by omega) (by omega)
        (fun i h1 h2 => hok i (by omega) h2) hstop
        (fun i h1 h2 => hfirst i (by omega) h2)
      push_cast at this
      rw [this]
      simp [pageRequests]

theorem take_mul_succ (L : List String) (j p : Nat) :
    L.take (j * p) ++ (L.drop (j * p)).take p = L.take ((j + 1) * p) := by
  rw [Nat.succ_mul, List.take_add]

/-- The loop over a paged provider returns the whole list. -/
theorem listLoop_paged (L : List String) (p : Nat) (hp : 1 ≤ p) :
    ∀ (n j fuel : Nat), L.length - j * p ≤ n → n + 1 ≤ fuel →
      (listLoop (pagedProvider L p) fuel (L.take (j * p)) ((j : Int) + 1)).result
        = some (.ok L) := by
  intro n
  induction n with
  | zero =>
    intro j fuel hn hfuel
    obtain ⟨fuel, rfl⟩ : ∃ f, fuel = f + 1 := ⟨fuel - 1, by omega⟩
    rw [listLoop_succ]
    have hlen : L.length ≤ j * p := by omega
    have hd : L.drop (j * p) = [] := List.drop_eq_nil_of_le hlen
    simp [pagedProvider, listRequest, hd, List.take_of_length_le hlen]
  | succ n ih =>
    intro j fuel hn hfuel
    obtain ⟨fuel, rfl⟩ : ∃ f, fuel = f + 1 := ⟨fuel - 1, by omega⟩
    rw [listLoop_succ]
    have hpage : ((listRequest ((j : Int) + 1)).Page.toNat - 1) = j := by
      simp [listRequest]
    have hnames : (List.map NameserverDomain.mk ((L.drop (j * p)).take p)).map
        (fun domain => domain.Domain) = (L.drop (j * p)).take p := by
      simp [List.map_map, Function.comp_def]
    simp only [pagedProvider, hpage, hnames, take_mul_succ, List.length_map]
    split_ifs with hstop
    · have htake : List.take ((j + 1) * p) L = L := by
        apply List.take_of_length_le
        rcases hstop with h | h
        · rw [List.length_take, List.length_drop] at h
          have : L.length - j * p = 0 := by
            rcases Nat.eq_zero_or_pos (L.length - j * p) with h0 | h0
            · exact h0
            · exfalso
              have hm : 1 ≤ min p (L.length - j * p) := Nat.le_min.mpr ⟨hp, h0⟩
              omega
          have h2 : j * p ≤ (j + 1) * p := Nat.mul_le_mul_right p (by omega)
          omega
        · rw [List.length_take] at h
          have h3 : (L.length : Int) ≤ ((min ((j + 1) * p) L.length : Nat) : Int) := h
          have h4 : L.length ≤ min ((j + 1) * p) L.length := by exact_mod_cast h3
          exact (Nat.le_min.mp h4).1
      simp [htake]
    · have := ih (j + 1) fuel (by
        have h2 : (j + 1) * p = j * p + p := Nat.succ_mul j p
        omega) (by omega)
      push_cast at this
      exact this

/-- Every response reports at most `N` zones: the loop ends within the bound. -/
theorem listLoop_bounded (client : Client) (N : Nat)
    (hN : ∀ request response, client request = .ok response → response.Count ≤ (N : Int)) :
    ∀ (fuel : Nat) (zones : List String) (page : Int),
      1 ≤ fuel → N ≤ zones.length + fuel →
      (listLoop client fuel zones page).result ≠ none ∧
      (listLoop client fuel zones page).requests.length ≤ max 1 (N - zones.length) := by
  intro fuel
  induction fuel with
  | zero => intro zones page h; omega
  | succ fuel ih =>
    intro zones page _ hfuel
    rw [listLoop_succ]
    cases hp : client (listRequest page) with
    | error err => simp
    | ok response =>
      simp only []
      split_ifs with hstop
      · simp
      · have hcount := hN _ _ hp
        rw [not_or] at hstop
        obtain ⟨hne, hlt⟩ := hstop
        rw [List.length_append, List.length_map] at hlt
        have hlt2 : zones.length + response.Domains.length < N := by
          have : ((zones.length + response.Domains.length : Nat) : Int) < (N : Int) := by
            push_cast; omega
          exact_mod_cast this
        have := ih (zones ++ response.Domains.map (fun domain => domain.Domain)) (page + 1)
          (by omega) (by rw [List.length_append, List.length_map]; omega)
        rw [List.length_append, List.length_map] at this
        refine ⟨this.1, ?_⟩
        simp only [List.length_cons]
        have h2 := this.2
        have hmax : max 1 (N - (zones.length + response.Domains.length))
            = N - (zones.length + response.Domains.length) := max_eq_right (by omega)
        rw [hmax] at h2
        have : N - zones.length ≤ max 1 (N - zones.length) := le_max_right _ _
        omega

theorem pageRequests_eq_map (n : Nat) : ∀ j : Nat,
    pageRequests j n = (List.range n).map (fun i => listRequest (((j + i : Nat) : Int) + 1)) := by
  induction n with
  | zero => intro j; rfl
  | succ n ih =>
    intro j
    rw [pageRequests, ih (j + 1), List.range_succ_eq_map, List.map_cons, List.map_map]
    simp only [Nat.add_zero, List.cons.injEq, true_and]
    apply List.map_congr_left
    intro i _
    simp only [Function.comp]
    congr 2
    push_cast
    omega

theorem getZones_miss (fuel : Nat) (now fetched : Int) (w : ClientWrapper)
    (hmiss : w.zonesCache = none ∨ zonesCacheTTL ≤ now - w.zonesCacheTime) :
    getZones fuel now fetched w =
      match (listLoop w.client fuel [] 1).result with
      | some (.ok zones) =>
        { result := some (.ok zones),
          wrapper := { w with zonesCache := some zones, zonesCacheTime := fetched },
          requests := (listLoop w.client fuel [] 1).requests }
      | other => { result := other, wrapper := w, requests := (listLoop w.client fuel [] 1).requests } := by
  have hn : ¬ (w.zonesCache ≠ none ∧ timeSince now w.zonesCacheTime < zonesCacheTTL) := by
    rw [timeSince_lt_ttl_iff]
    rcases hmiss with h | h
    · simp [h]
    · intro hc; omega
  unfold getZones
  rw [if_neg hn]

theorem getZones_hit (fuel : Nat) (now fetched : Int) (w : ClientWrapper) (cached : List String)
    (hcache : w.zonesCache = some cached) (hage : now - w.zonesCacheTime < zonesCacheTTL) :
    getZones fuel now fetched w = { result := some (.ok cached), wrapper := w, requests := [] } := by
  have hp : w.zonesCache ≠ none ∧ timeSince now w.zonesCacheTime < zonesCacheTTL := by
    rw [timeSince_lt_ttl_iff]
    exact ⟨by simp [hcache], hage⟩
  unfold getZones
  rw [if_pos hp]
  simp [hcache]

theorem getZones_requests_eq (fuel : Nat) (now fetched : Int) (w : ClientWrapper)
    (hmiss : w.zonesCache = none ∨ zonesCacheTTL ≤ now - w.zonesCacheTime) :
    (getZones fuel now fetched w).requests = (listLoop w.client fuel [] 1).requests := by
  rw [getZones_miss fuel now fetched w hmiss]
  split <;> rfl

theorem getZones_result_eq (fuel : Nat) (now fetched : Int) (w : ClientWrapper)
    (hmiss : w.zonesCache = none ∨ zonesCacheTTL ≤ now - w.zonesCacheTime) :
    (getZones fuel now fetched w).result = (listLoop w.client fuel [] 1).result := by
  rw [getZones_miss fuel now fetched w hmiss]
  split
  · next h => rw [h]
  · rfl

theorem getZones_hit_or_miss (now : Int) (w : ClientWrapper) :
    (∃ cached, w.zonesCache = some cached ∧ now - w.zonesCacheTime < zonesCacheTTL) ∨
    (w.zonesCache = none ∨ zonesCacheTTL ≤ now - w.zonesCacheTime) := by
  cases hc : w.zonesCache with
  | none => right; left; rfl
  | some cached =>
    by_cases h : now - w.zonesCacheTime < zonesCacheTTL
    · left; exact ⟨cached, rfl, h⟩
    · right; right; omega

/-- C5: a failed listing request, at whichever page, makes `getZones` return an
error naming that page, and leaves `zonesCache` and `zonesCacheTime` as they
were; nothing accumulated from earlier pages is stored or returned. -/
theorem getZones_failure_keeps_cache (fuel : Nat) (now fetched : Int) (w : ClientWrapper)
    (request : NameserverListRequest) (cause : String)
    (hsent : request ∈ (getZones fuel now fetched w).requests)
    (hfail : w.client request = .error cause) :
    (getZones fuel now fetched w).result = some (.error (listError request.Page cause)) ∧
    (getZones fuel now fetched w).wrapper.zonesCache = w.zonesCache ∧
    (getZones fuel now fetched w).wrapper.zonesCacheTime = w.zonesCacheTime := by
  rcases getZones_hit_or_miss now w with ⟨cached, hc, hage⟩ | hmiss
  · rw [getZones_hit fuel now fetched w cached hc hage] at hsent
    simp at hsent
  · rw [getZones_requests_eq fuel now fetched w hmiss] at hsent
    have hloop := listLoop_error_of_mem w.client fuel [] 1 request cause hsent hfail
    rw [getZones_miss fuel now fetched w hmiss, hloop]
    exact ⟨rfl, rfl, rfl⟩

theorem getZones_failure_keeps_cache_witness :
    listRequest 2 ∈ (getZones 5 zonesCacheTTL 7 (staleWrapper failingSecondPage)).requests ∧
    (getZones 5 zonesCacheTTL 7 (staleWrapper failingSecondPage)).result
      = some (.error (listError 2 "timeout")) ∧
    (getZones 5 zonesCacheTTL 7 (staleWrapper failingSecondPage)).wrapper.zonesCache
      = some ["old.org"] ∧
    (getZones 5 zonesCacheTTL 7 (staleWrapper failingSecondPage)).wrapper.zonesCacheTime = 0 :=
  ⟨by decide,
   getZones_failure_keeps_cache 5 zonesCacheTTL 7 (staleWrapper failingSecondPage)
     (listRequest 2) "timeout" (by decide) rfl⟩

/-- C6: on a cache miss with every request answered, `getZones` requests the
pages `1, ..., k` in order, `k` being the first page at which the exit test
holds, returns the names of those pages concatenated in order, and does not
request page `k + 1`. -/
theorem getZones_pages_until_exit (fuel k : Nat) (now fetched : Int) (w : ClientWrapper)
    (hmiss : w.zonesCache = none ∨ zonesCacheTTL ≤ now - w.zonesCacheTime)
    (hk : 1 ≤ k) (hfuel : k ≤ fuel)
    (hok : ∀ i, 1 ≤ i → i ≤ k → pageSucceeds w.client i = true)
    (hstop : stopsAt w.client k = true)
    (hfirst : ∀ i, 1 ≤ i → i < k → stopsAt w.client i = false) :
    (getZones fuel now fetched w).result = some (.ok (accumulated w.client k)) ∧
    (getZones fuel now fetched w).requests
      = (List.range k).map (fun (i : Nat) => listRequest ((i : Int) + 1)) ∧
    listRequest ((k : Int) + 1) ∉ (getZones fuel now fetched w).requests := by
  obtain ⟨d, rfl⟩ : ∃ d, k = d + 1 := ⟨k - 1, by omega⟩
  have hloop := listLoop_stops w.client (d + 1) d 0 fuel (by omega) hfuel
    (fun i h1 h2 => hok i (by omega) h2) hstop (fun i h1 h2 => hfirst i (by omega) h2)
  simp only [accumulated, List.nil_append, Nat.cast_zero, zero_add] at hloop
  have hreq : (getZones fuel now fetched w).requests
      = (List.range (d + 1)).map (fun (i : Nat) => listRequest ((i : Int) + 1)) := by
    rw [getZones_requests_eq fuel now fetched w hmiss, hloop, pageRequests_eq_map]
    simp
  refine ⟨?_, hreq, ?_⟩
  · rw [getZones_result_eq fuel now fetched w hmiss, hloop]
    simp [accumulated]
  · rw [hreq]
    intro hmem
    rw [List.mem_map] at hmem
    obtain ⟨i, hi, heq⟩ := hmem
    rw [List.mem_range] at hi
    have hpage := congrArg NameserverListRequest.Page heq
    simp only [listRequest] at hpage
    push_cast at hpage
    omega

theorem getZones_pages_until_exit_witness :
    (getZones 5 0 7 (freshWrapper twoPageProvider)).result
      = some (.ok (accumulated twoPageProvider 2)) ∧
    (getZones 5 0 7 (freshWrapper twoPageProvider)).requests
      = (List.range 2).map (fun (i : Nat) => listRequest ((i : Int) + 1)) ∧
    listRequest ((2 : Nat) + 1) ∉ (getZones 5 0 7 (freshWrapper twoPageProvider)).requests :=
  getZones_pages_until_exit 5 2 0 7 (freshWrapper twoPageProvider) (Or.inl rfl)
    (by decide) (by decide)
    (fun i h1 h2 => by
      obtain rfl | rfl : i = 1 ∨ i = 2 := by omega
      · rfl
      · rfl)
    (by decide)
    (fun i h1 h2 => by
      obtain rfl : i = 1 := by omega
      decide)

/-- C7: a call that fetched successfully stores the returned list and the
fetch time, whatever the cache held; a call made less than five minutes after
that time returns the same list, sends nothing and leaves the wrapper alone,
also when the list is empty. -/
theorem getZones_fetch_fills_cache (fuel : Nat) (now fetched : Int) (w : ClientWrapper)
    (zones : List String)
    (hres : (getZones fuel now fetched w).result = some (.ok zones))
    (hsent : (getZones fuel now fetched w).requests ≠ []) :
    (getZones fuel now fetched w).wrapper.zonesCache = some zones ∧
    (getZones fuel now fetched w).wrapper.zonesCacheTime = fetched ∧
    ∀ (fuel2 : Nat) (now2 fetched2 : Int), now2 - fetched < zonesCacheTTL →
      getZones fuel2 now2 fetched2 (getZones fuel now fetched w).wrapper
        = { result := some (.ok zones), wrapper := (getZones fuel now fetched w).wrapper,
            requests := [] } := by
  rcases getZones_hit_or_miss now w with ⟨cached, hc, hage⟩ | hmiss
  · rw [getZones_hit fuel now fetched w cached hc hage] at hsent
    exact absurd rfl hsent
  · rw [getZones_result_eq fuel now fetched w hmiss] at hres
    have hrun : getZones fuel now fetched w
        = { result := some (.ok zones),
            wrapper := { w with zonesCache := some zones, zonesCacheTime := fetched },
            requests := (listLoop w.client fuel [] 1).requests } := by
      rw [getZones_miss fuel now fetched w hmiss, hres]
    rw [hrun]
    refine ⟨rfl, rfl, ?_⟩
    intro fuel2 now2 fetched2 hlt
    exact getZones_hit fuel2 now2 fetched2 _ zones rfl hlt

theorem getZones_fetch_fills_cache_witness :
    (getZones 1 zonesCacheTTL 9 (staleWrapper emptyProvider)).wrapper.zonesCache = some [] ∧
    (getZones 1 zonesCacheTTL 9 (staleWrapper emptyProvider)).wrapper.zonesCacheTime = 9 ∧
    getZones 0 (zonesCacheTTL + 8) 0 (getZones 1 zonesCacheTTL 9 (staleWrapper emptyProvider)).wrapper
      = { result := some (.ok []),
          wrapper := (getZones 1 zonesCacheTTL 9 (staleWrapper emptyProvider)).wrapper,
          requests := [] } :=
  have h := getZones_fetch_fills_cache 1 zonesCacheTTL 9 (staleWrapper emptyProvider) []
    rfl (by decide)
  ⟨h.1, h.2.1, h.2.2 0 (zonesCacheTTL + 8) 0 (by decide)⟩

/-- C8, as stated, fails when the cached copy is exactly five minutes old: the
cache is populated, the age equals the TTL, and a listing request is sent. -/
theorem getZones_fetches_at_exact_ttl :
    (staleWrapper emptyProvider).zonesCache = some ["old.org"] ∧
    timeSince zonesCacheTTL (staleWrapper emptyProvider).zonesCacheTime = zonesCacheTTL ∧
    ¬ (timeSince zonesCacheTTL (staleWrapper emptyProvider).zonesCacheTime > zonesCacheTTL) ∧
    (getZones 1 zonesCacheTTL 9 (staleWrapper emptyProvider)).requests = [listRequest 1] ∧
    (getZones 1 zonesCacheTTL 9 (staleWrapper emptyProvider)).result = some (.ok []) := by
  refine ⟨rfl, by decide, by decide, by decide, rfl⟩

/-- C8 (amended): `getZones` sends a listing request exactly when the cache is
unpopulated or the cached copy is at least five minutes old; otherwise it
answers from the cache, sends nothing and leaves the wrapper as it was. -/
theorem getZones_requests_iff (fuel : Nat) (now fetched : Int) (w : ClientWrapper)
    (hfuel : 1 ≤ fuel) :
    ((getZones fuel now fetched w).requests ≠ [] ↔
      (w.zonesCache = none ∨ zonesCacheTTL ≤ now - w.zonesCacheTime)) ∧
    (∀ cached, w.zonesCache = some cached → now - w.zonesCacheTime < zonesCacheTTL →
      getZones fuel now fetched w
        = { result := some (.ok cached), wrapper := w, requests := [] }) := by
  refine ⟨?_, fun cached hc hage => getZones_hit fuel now fetched w cached hc hage⟩
  constructor
  · intro hne
    rcases getZones_hit_or_miss now w with ⟨cached, hc, hage⟩ | hmiss
    · rw [getZones_hit fuel now fetched w cached hc hage] at hne
      exact absurd rfl hne
    · exact hmiss
  · intro hmiss
    rw [getZones_requests_eq fuel now fetched w hmiss]
    obtain ⟨fuel, rfl⟩ : ∃ f, fuel = f + 1 := ⟨fuel - 1, by omega⟩
    rw [listLoop_succ]
    cases w.client (listRequest 1) with
    | error err => simp
    | ok response =>
      simp only []
      split_ifs <;> simp

theorem getZones_requests_iff_witness :
    ((getZones 1 (zonesCacheTTL - 1) 9 (staleWrapper emptyProvider)).requests ≠ [] ↔
      ((staleWrapper emptyProvider).zonesCache = none ∨
        zonesCacheTTL ≤ zonesCacheTTL - 1 - (staleWrapper emptyProvider).zonesCacheTime)) ∧
    getZones 1 (zonesCacheTTL - 1) 9 (staleWrapper emptyProvider)
      = { result := some (.ok ["old.org"]), wrapper := staleWrapper emptyProvider,
          requests := [] } :=
  have h := getZones_requests_iff 1 (zonesCacheTTL - 1) 9 (staleWrapper emptyProvider)
    (by decide)
  ⟨h.1, h.2 ["old.org"] rfl (by decide)⟩

/-- C9: against a provider that serves the list `L` in pages of `p ≥ 1` names
and reports the total `L.length`, `getZones` on an unpopulated cache returns
exactly `L`. -/
theorem getZones_paged_returns_all (L : List String) (p fuel : Nat) (now fetched : Int)
    (w : ClientWrapper) (hp : 1 ≤ p) (hclient : w.client = pagedProvider L p)
    (hcache : w.zonesCache = none) (hfuel : L.length + 1 ≤ fuel) :
    (getZones fuel now fetched w).result = some (.ok L) ∧
    (getZones fuel now fetched w).wrapper.zonesCache = some L := by
  have hloop := listLoop_paged L p hp L.length 0 fuel (by omega) hfuel
  simp only [Nat.zero_mul, List.take_zero, Nat.cast_zero, zero_add] at hloop
  have hres : (getZones fuel now fetched w).result = some (.ok L) := by
    rw [getZones_result_eq fuel now fetched w (Or.inl hcache), hclient, hloop]
  refine ⟨hres, ?_⟩
  rw [getZones_miss fuel now fetched w (Or.inl hcache), hclient, hloop]

theorem getZones_paged_returns_all_witness :
    (getZones 4 0 9 (freshWrapper (pagedProvider ["a.org", "b.org", "c.org"] 2))).result
      = some (.ok ["a.org", "b.org", "c.org"]) ∧
    (getZones 4 0 9 (freshWrapper (pagedProvider ["a.org", "b.org", "c.org"] 2))).wrapper.zonesCache
      = some ["a.org", "b.org", "c.org"] :=
  getZones_paged_returns_all ["a.org", "b.org", "c.org"] 2 4 0 9
    (freshWrapper (pagedProvider ["a.org", "b.org", "c.org"] 2)) (by decide) rfl rfl (by decide)

/-- C10: when every successful response reports a total of at most `N`, the
call ends (with a list or an error) after at most `max 1 N` listing requests. -/
theorem getZones_requests_bounded (N fuel : Nat) (now fetched : Int) (w : ClientWrapper)
    (hN : ∀ request response, w.client request = .ok response → response.Count ≤ (N : Int))
    (hfuel : max 1 N ≤ fuel) :
    (getZones fuel now fetched w).result ≠ none ∧
    (getZones fuel now fetched w).requests.length ≤ max 1 N := by
  rcases getZones_hit_or_miss now w with ⟨cached, hc, hage⟩ | hmiss
  · rw [getZones_hit fuel now fetched w cached hc hage]
    simp
  · have hloop := listLoop_bounded w.client N hN fuel [] 1
      (le_trans (le_max_left 1 N) hfuel)
      (by simp only [List.length_nil, Nat.zero_add]; exact le_trans (le_max_right 1 N) hfuel)
    rw [getZones_result_eq fuel now fetched w hmiss,
      getZones_requests_eq fuel now fetched w hmiss]
    simpa using hloop

theorem getZones_requests_bounded_witness :
    (getZones 3 0 9 (freshWrapper twoPageProvider)).result ≠ none ∧
    (getZones 3 0 9 (freshWrapper twoPageProvider)).requests.length ≤ max 1 3 :=
  getZones_requests_bounded 3 3 0 9 (freshWrapper twoPageProvider)
    (fun request response h => by
      unfold freshWrapper twoPageProvider at h
      simp only [] at h
      split_ifs at h <;> (cases h; decide))
    (by decide)

/-! ## Zone resolution and record matching: theorems -/

theorem string_eq_empty_of_length_le_zero (s : String) (h : s.length ≤ 0) : s = "" := by
  have h0 : s.data.length = 0 := Nat.le_zero.mp h
  have hd : s.data = [] := List.length_eq_zero.mp h0
  cases s
  simp only at hd
  subst hd
  rfl

theorem getZone_fold (name : String) :
    ∀ (zones : List String) (best : String),
      (zones.foldl (fun best zone =>
          if inZone name zone && best.length < zone.length then zone else best) best = best ∨
        (zones.foldl (fun best zone =>
          if inZone name zone && best.length < zone.length then zone else best) best ∈ zones ∧
         inZone name (zones.foldl (fun best zone =>
          if inZone name zone && best.length < zone.length then zone else best) best) = true)) ∧
      best.length ≤ (zones.foldl (fun best zone =>
          if inZone name zone && best.length < zone.length then zone else best) best).length ∧
      ∀ z ∈ zones, inZone name z = true → z.length ≤ (zones.foldl (fun best zone =>
          if inZone name zone && best.length < zone.length then zone else best) best).length := by
  intro zones
  induction zones with
  | nil => intro best; simp
  | cons zone rest ih =>
    intro best
    simp only [List.foldl_cons]
    by_cases hc : (inZone name zone && decide (best.length < zone.length)) = true
    · rw [if_pos hc]
      obtain ⟨h1, h2, h3⟩ := ih zone
      simp only [Bool.and_eq_true, decide_eq_true_eq] at hc
      refine ⟨?_, by omega, ?_⟩
      · right
        rcases h1 with h1 | ⟨h1, h1m⟩
        · rw [h1]; exact ⟨List.mem_cons_self _ _, hc.1⟩
        · exact ⟨List.mem_cons_of_mem _ h1, h1m⟩
      · intro z hz hm
        rcases List.mem_cons.mp hz with rfl | hz
        · exact h2
        · exact h3 z hz hm
    · rw [if_neg hc]
      obtain ⟨h1, h2, h3⟩ := ih best
      simp only [Bool.and_eq_true, decide_eq_true_eq, not_and, not_lt] at hc
      refine ⟨?_, h2, ?_⟩
      · rcases h1 with h1 | ⟨h1, h1m⟩
        · left; exact h1
        · right; exact ⟨List.mem_cons_of_mem _ h1, h1m⟩
      · intro z hz hm
        rcases List.mem_cons.mp hz with rfl | hz
        · exact le_trans (hc hm) h2
        · exact h3 z hz hm

/-- Two zones of the same length that both match a name are the same zone. -/
theorem inZone_unique (name a b : String) (ha : inZone name a = true) (hb : inZone name b = true)
    (hlen : a.length = b.length) : a = b := by
  have hdata : ∀ s : String, ("." ++ s).data = '.' :: s.data := fun s => by
    rw [String.data_append]; rfl
  have key : ∀ s : String, inZone name s = true →
      name = s ∨ ('.' :: s.data) <:+ name.data := by
    intro s hs
    unfold inZone hasSuffix at hs
    rw [Bool.or_eq_true] at hs
    rcases hs with h | h
    · left; simpa using h
    · right
      rw [List.isSuffixOf_iff_suffix, hdata] at h
      exact h
  have hl : a.data.length = b.data.length := hlen
  rcases key a ha with h1 | h1 <;> rcases key b hb with h2 | h2
  · rw [← h1, ← h2]
  · have := h2.length_le
    rw [h1] at this
    simp only [List.length_cons] at this
    omega
  · have := h1.length_le
    rw [h2] at this
    simp only [List.length_cons] at this
    omega
  · have hsuf : ('.' :: a.data) <:+ ('.' :: b.data) :=
      List.suffix_of_suffix_length_le h1 h2 (by simp only [List.length_cons]; omega)
    have heq := hsuf.eq_of_length (by simp only [List.length_cons]; omega)
    have hd : a.data = b.data := (List.cons.inj heq).2
    exact String.ext hd

/-- C1: `getZone` returns the longest zone of the list that the name equals or
ends with after a dot (it is in the list, it matches, every matching zone of
the list is at most as long, and a matching zone of the same length is that
zone), and the empty string when no zone of the list matches. -/
theorem getZone_longest_match (zones : List String) (ep : Endpoint) :
    ((∃ z ∈ zones, ep.DNSName = z ∨ hasSuffix ep.DNSName ("." ++ z) = true) →
      getZone zones ep ∈ zones ∧
      (ep.DNSName = getZone zones ep ∨
        hasSuffix ep.DNSName ("." ++ getZone zones ep) = true) ∧
      ∀ z ∈ zones, (ep.DNSName = z ∨ hasSuffix ep.DNSName ("." ++ z) = true) →
        z.length ≤ (getZone zones ep).length ∧
        (z.length = (getZone zones ep).length → z = getZone zones ep)) ∧
    ((∀ z ∈ zones, ¬ (ep.DNSName = z ∨ hasSuffix ep.DNSName ("." ++ z) = true)) →
      getZone zones ep = "") := by
  have hiff : ∀ z, (ep.DNSName = z ∨ hasSuffix ep.DNSName ("." ++ z) = true)
      ↔ inZone ep.DNSName z = true := by
    intro z
    simp [inZone]
  obtain ⟨h1, _, h3⟩ := getZone_fold ep.DNSName zones ""
  change (getZone zones ep = "" ∨
    (getZone zones ep ∈ zones ∧ inZone ep.DNSName (getZone zones ep) = true)) at h1
  change ∀ z ∈ zones, inZone ep.DNSName z = true → z.length ≤ (getZone zones ep).length at h3
  constructor
  · rintro ⟨z0, hz0, hm0⟩
    have hres : getZone zones ep ∈ zones ∧ inZone ep.DNSName (getZone zones ep) = true := by
      rcases h1 with h1 | h1
      · have hlen := h3 z0 hz0 ((hiff z0).mp hm0)
        rw [h1] at hlen
        have hz0e : z0 = "" := string_eq_empty_of_length_le_zero z0 hlen
        subst hz0e
        rw [h1]
        exact ⟨hz0, (hiff _).mp hm0⟩
      · exact h1
    refine ⟨hres.1, (hiff _).mpr hres.2, ?_⟩
    intro z hz hm
    exact ⟨h3 z hz ((hiff z).mp hm),
      fun hlen => inZone_unique ep.DNSName z _ ((hiff z).mp hm) hres.2 hlen⟩
  · intro hnone
    rcases h1 with h1 | ⟨h1, h1m⟩
    · exact h1
    · exact absurd ((hiff _).mpr h1m) (hnone _ h1)

theorem getZone_longest_match_witness :
    (getZone testZones (addressEndpoint "foo.subdomain.bar.org" "1.1.1.1") ∈ testZones ∧
      ("foo.subdomain.bar.org" = getZone testZones (addressEndpoint "foo.subdomain.bar.org" "1.1.1.1") ∨
        hasSuffix "foo.subdomain.bar.org"
          ("." ++ getZone testZones (addressEndpoint "foo.subdomain.bar.org" "1.1.1.1")) = true) ∧
      "bar.org".length ≤ (getZone testZones (addressEndpoint "foo.subdomain.bar.org" "1.1.1.1")).length) ∧
    getZone testZones (addressEndpoint "foo.bar.org" "5.5.5.5") = "bar.org" ∧
    getZone testZones (addressEndpoint "foo.foo.org" "5.5.5.5") = "" ∧
    getZone testZones (addressEndpoint "baz.org" "5.5.5.5") = "baz.org" ∧
    getZone testZones (addressEndpoint "foo.subdomain.bar.org" "1.1.1.1") = "subdomain.bar.org" ∧
    getZone testZones (addressEndpoint "foo.otherdomain.bar.org" "1.1.1.1") = "bar.org" :=
  have h := (getZone_longest_match testZones
    (addressEndpoint "foo.subdomain.bar.org" "1.1.1.1")).1
    ⟨"bar.org", by decide, Or.inr (by decide)⟩
  ⟨⟨h.1, h.2.1, (h.2.2 "bar.org" (by decide) (Or.inr (by decide))).1⟩,
    by decide, by decide, by decide, by decide, by decide⟩

theorem matchingIDs_eq_filter (name typ : String) (targets : List String) :
    ∀ records : List NameserverRecord,
      matchingIDs name typ targets records
        = (records.filter (fun r =>
            decide (r.Name = name ∧ r.Typ = typ ∧ r.Content ∈ targets))).map (fun r => r.ID) := by
  intro records
  induction records with
  | nil => rfl
  | cons record rest ih =>
    by_cases h : record.Name = name ∧ record.Typ = typ ∧ record.Content ∈ targets
    · simp only [matchingIDs, if_pos h, ih]
      rw [List.filter_cons_of_pos (by simpa using h)]
      rfl
    · simp only [matchingIDs, if_neg h, ih]
      rw [List.filter_cons_of_neg (by simpa using h)]

/-- C2: `getRecIDs` returns, without error, exactly the IDs of the records whose
name is the endpoint's zone-relative name (empty at the apex), whose type is
the endpoint's and whose content is one of its targets, in listing order; the
result does not depend on the order of the targets. -/
theorem getRecIDs_exact (zone : String) (records : List NameserverRecord) (ep : Endpoint) :
    getRecIDs zone records ep
      = .ok ((records.filter (fun r =>
          decide (r.Name = relativeName ep.DNSName zone ∧ r.Typ = ep.RecordType ∧
            r.Content ∈ ep.Targets))).map (fun r => r.ID)) ∧
    relativeName zone zone = "" ∧
    ∀ targets : List String, targets.Perm ep.Targets →
      getRecIDs zone records { ep with Targets := targets } = getRecIDs zone records ep := by
  refine ⟨?_, ?_, ?_⟩
  · simp only [getRecIDs, matchingIDs_eq_filter]
  · simp [relativeName]
  · intro targets hperm
    simp only [getRecIDs, matchingIDs_eq_filter]
    congr 2
    apply List.filter_congr
    intro r _
    simp only [hperm.mem_iff]

theorem getRecIDs_exact_witness :
    getRecIDs "baz.org" testRecords
        { DNSName := "baz.org", Targets := ["5.5.5.6", "5.5.5.5"], RecordType := "A",
          RecordTTL := 0 }
      = getRecIDs "baz.org" testRecords
        { DNSName := "baz.org", Targets := ["5.5.5.5", "5.5.5.6"], RecordType := "A",
          RecordTTL := 0 } ∧
    getRecIDs "baz.org" testRecords
        { DNSName := "baz.org", Targets := ["5.5.5.5", "5.5.5.6"], RecordType := "A",
          RecordTTL := 0 } = .ok ["12", "13"] ∧
    getRecIDs "baz.org" testRecords
        { DNSName := "foo.baz.org", Targets := ["5.5.5.5"], RecordType := "A", RecordTTL := 0 }
      = .ok ["11"] ∧
    getRecIDs "baz.org" testRecords
        { DNSName := "foo.baz.org", Targets := ["5.5.5.5", "9.9.9.9"], RecordType := "A",
          RecordTTL := 0 }
      = .ok ["11"] ∧
    getRecIDs "example.com" testRecords
        { DNSName := "foo.example.com", RecordType := "TXT", RecordTTL := 0,
          Targets := ["heritage=external-dns,external-dns/owner=default,external-dns/resource=service/default/nginx"] }
      = .ok ["10"] :=
  ⟨(getRecIDs_exact "baz.org" testRecords
      { DNSName := "baz.org", Targets := ["5.5.5.5", "5.5.5.6"], RecordType := "A",
        RecordTTL := 0 }).2.2 ["5.5.5.6", "5.5.5.5"] (List.Perm.swap _ _ _),
    rfl, rfl, rfl, rfl⟩

/-! ## The change applier: the scenarios of the tests -/

/-- The model reproduces the assertions of `testApplyChanges` and
`testCreateUpsertsWhenDifferentContent`: a create leaves the record with ID
`"0"`, an update rewrites it in
place, a delete empties the zone, a create with another content rewrites the
record instead of adding one, and no step reports an error. -/
theorem ApplyChanges_reproduces_tests :
    (ApplyChanges exampleProvider
      { Create := [testEndpoint "foo.example.com" ["1.1.1.1"]] }).errors = [] ∧
    oneRecordProvider.db "example.com"
      = [{ ID := "0", Name := "foo", Typ := "A", Content := "1.1.1.1", TTL := 60 }] ∧
    (ApplyChanges oneRecordProvider
      { UpdateOld := [testEndpoint "foo.example.com" ["1.1.1.1"]],
        UpdateNew := [testEndpoint "foo.example.com" ["1.1.1.2"]] }).errors = [] ∧
    (ApplyChanges oneRecordProvider
      { UpdateOld := [testEndpoint "foo.example.com" ["1.1.1.1"]],
        UpdateNew := [testEndpoint "foo.example.com" ["1.1.1.2"]] }).provider.db "example.com"
      = [{ ID := "0", Name := "foo", Typ := "A", Content := "1.1.1.2", TTL := 60 }] ∧
    (ApplyChanges
      (ApplyChanges oneRecordProvider
        { UpdateOld := [testEndpoint "foo.example.com" ["1.1.1.1"]],
          UpdateNew := [testEndpoint "foo.example.com" ["1.1.1.2"]] }).provider
      { Delete := [testEndpoint "foo.example.com" ["1.1.1.2"]] }).provider.db "example.com"
      = [] ∧
    (ApplyChanges oneRecordProvider
      { Create := [testEndpoint "foo.example.com" ["2.2.2.2"]] }).errors = [] ∧
    (ApplyChanges oneRecordProvider
      { Create := [testEndpoint "foo.example.com" ["2.2.2.2"]] }).provider.db "example.com"
      = [{ ID := "0", Name := "foo", Typ := "A", Content := "2.2.2.2", TTL := 60 }] := by
  refine ⟨by decide, by decide, by decide, by decide, by decide, by decide, by decide⟩

/-! ## The change applier: views of a record list -/

theorem createTarget_ok (zone name : String) (ep : Endpoint) (w : MockClientWrapper)
    (target : String) :
    createTarget zone name ep w target = .ok (createTargetState zone name ep w target) := by
  unfold createTargetState
  unfold createTarget
  simp only [MockClientWrapper.getRecords]
  split_ifs with hc
  · rfl
  · cases (w.db zone).find? (sameKey name ep.RecordType) with
    | none => rfl
    | some existing => rfl

theorem runCalls_createTarget (zone name : String) (ep : Endpoint) (targets : List String) :
    ∀ w : MockClientWrapper,
      runCalls (createTarget zone name ep) w targets
        = (targets.foldl (createTargetState zone name ep) w, none) := by
  induction targets with
  | nil => intro w; rfl
  | cons target rest ih =>
    intro w
    rw [runCalls, createTarget_ok]
    simp only [List.foldl_cons]
    exact ih _

theorem applyCreate_eq (zones : List String) (w : MockClientWrapper) (ep : Endpoint)
    (hz : getZone zones ep ≠ "") :
    applyCreate zones w ep
      = (ep.Targets.foldl
          (createTargetState (getZone zones ep) (relativeName ep.DNSName (getZone zones ep)) ep)
          w, none) := by
  unfold applyCreate
  simp only [if_neg hz]
  exact runCalls_createTarget _ _ _ _ _

theorem createTargetState_cases (zone name : String) (ep : Endpoint) (w : MockClientWrapper)
    (target : String) :
    ((w.db zone).any (sameContent name ep.RecordType target) = true ∧
      createTargetState zone name ep w target = w) ∨
    (∃ existing, existing ∈ w.db zone ∧ sameKey name ep.RecordType existing = true ∧
      (createTargetState zone name ep w target).db zone
        = (w.db zone).map (fun record =>
            if record.ID = existing.ID then
              overwrite (targetRequest zone name ep target) record
            else record)) ∨
    ((createTargetState zone name ep w target).db zone
      = w.db zone ++ [{ ID := toString w.nextID, Name := name, Typ := ep.RecordType,
                        Content := target, TTL := ep.RecordTTL }]) := by
  unfold createTargetState createTarget
  simp only [MockClientWrapper.getRecords]
  by_cases hc : (w.db zone).any (sameContent name ep.RecordType target) = true
  · left
    rw [if_pos hc]
    exact ⟨hc, rfl⟩
  · right
    rw [if_neg hc]
    cases hf : (w.db zone).find? (sameKey name ep.RecordType) with
    | some existing =>
      left
      refine ⟨existing, List.mem_of_find?_eq_some hf, List.find?_some hf, ?_⟩
      simp only [MockClientWrapper.updateRecord]
    | none =>
      right
      simp only [MockClientWrapper.createRecord, targetRequest, if_true]

theorem mem_of_any_sameContent (name typ content : String) (L : List NameserverRecord)
    (h : L.any (sameContent name typ content) = true) :
    ∃ s ∈ L, s.Name = name ∧ s.Typ = typ ∧ s.Content = content := by
  rw [List.any_eq_true] at h
  obtain ⟨s, hs, hp⟩ := h
  unfold sameContent at hp
  simp only [decide_eq_true_eq] at hp
  exact ⟨s, hs, hp⟩

/-- After the Create rule has been applied to a target, the zone holds a record
with the entry's name and type and that target as content. -/
theorem createTargetState_present (zone name : String) (ep : Endpoint)
    (w : MockClientWrapper) (target : String) :
    ∃ r ∈ (createTargetState zone name ep w target).db zone,
      r.Name = name ∧ r.Typ = ep.RecordType ∧ r.Content = target := by
  rcases createTargetState_cases zone name ep w target with ⟨hc, h1⟩ | ⟨e, he, hek, h1⟩ | h1
  · rw [h1]
    exact mem_of_any_sameContent _ _ _ _ hc
  · rw [h1]
    unfold sameKey at hek
    simp only [decide_eq_true_eq] at hek
    refine ⟨overwrite (targetRequest zone name ep target) e, ?_, rfl, hek.2, rfl⟩
    rw [List.mem_map]
    exact ⟨e, he, by rw [if_pos rfl]⟩
  · rw [h1]
    exact ⟨_, List.mem_append_right _ (List.mem_singleton_self _), rfl, rfl, rfl⟩

/-- After the Create rule has processed a non-empty list of targets, the zone
holds a record with the entry's name and type whose content is one of them
(the last one). -/
theorem createTargets_present (zone : String) (ep : Endpoint) (name : String)
    (w : MockClientWrapper) (hne : ep.Targets ≠ []) :
    ∃ r ∈ ((ep.Targets.foldl (createTargetState zone name ep) w).db zone),
      r.Name = name ∧ r.Typ = ep.RecordType ∧ r.Content ∈ ep.Targets := by
  obtain ⟨pre, last, hsplit⟩ : ∃ pre last, ep.Targets = pre ++ [last] :=
    ⟨ep.Targets.dropLast, ep.Targets.getLast hne, (List.dropLast_append_getLast hne).symm⟩
  have hlast : last ∈ ep.Targets := by rw [hsplit]; simp
  have hfold : ep.Targets.foldl (createTargetState zone name ep) w
      = createTargetState zone name ep (pre.foldl (createTargetState zone name ep) w) last := by
    rw [hsplit, List.foldl_append]; rfl
  rw [hfold]
  obtain ⟨r, hr, hn, ht, hc⟩ := createTargetState_present zone name ep
    (pre.foldl (createTargetState zone name ep) w) last
  exact ⟨r, hr, hn, ht, by rw [hc]; exact hlast⟩

/-- C4: an update pair whose names resolve to managed zones and whose
`updateOld` matches no record of its zone is applied without error, and
afterwards the zone of `updateNew` holds a record with the relative name and
type of `updateNew` and one of its target values as content. -/
theorem ApplyChanges_update_fallback (w : MockClientWrapper) (updateOld updateNew : Endpoint)
    (hold : getZone w.zones updateOld ≠ "") (hnew : getZone w.zones updateNew ≠ "")
    (hnone : getRecIDs (getZone w.zones updateOld) (w.db (getZone w.zones updateOld)) updateOld
      = .ok [])
    (htargets : updateNew.Targets ≠ []) :
    (ApplyChanges w { UpdateOld := [updateOld], UpdateNew := [updateNew] }).errors = [] ∧
    ∃ r ∈ (ApplyChanges w { UpdateOld := [updateOld], UpdateNew := [updateNew] }).provider.db
        (getZone w.zones updateNew),
      r.Name = relativeName updateNew.DNSName (getZone w.zones updateNew) ∧
      r.Typ = updateNew.RecordType ∧ r.Content ∈ updateNew.Targets := by
  have hupd : applyUpdate w.zones w (updateOld, updateNew) = applyCreate w.zones w updateNew := by
    unfold applyUpdate
    simp only [if_neg hold, MockClientWrapper.getRecords, hnone]
  have hrun : ApplyChanges w { UpdateOld := [updateOld], UpdateNew := [updateNew] }
      = { provider := (applyCreate w.zones w updateNew).1,
          errors := [] ++ (applyCreate w.zones w updateNew).2.toList } := by
    simp only [ApplyChanges, MockClientWrapper.getZones, applyEntries, List.zip_cons_cons,
      List.zip_nil_right, hupd]
  rw [hrun, applyCreate_eq w.zones w updateNew hnew]
  exact ⟨rfl, createTargets_present _ updateNew _ w htargets⟩

theorem ApplyChanges_update_fallback_witness :
    (ApplyChanges exampleProvider
        { UpdateOld := [testEndpoint "foo.example.com" ["1.1.1.1"]],
          UpdateNew := [testEndpoint "foo.example.com" ["2.2.2.2"]] }).errors = [] ∧
    (∃ r ∈ (ApplyChanges exampleProvider
        { UpdateOld := [testEndpoint "foo.example.com" ["1.1.1.1"]],
          UpdateNew := [testEndpoint "foo.example.com" ["2.2.2.2"]] }).provider.db
          (getZone exampleProvider.zones (testEndpoint "foo.example.com" ["2.2.2.2"])),
      r.Name = relativeName (testEndpoint "foo.example.com" ["2.2.2.2"]).DNSName
          (getZone exampleProvider.zones (testEndpoint "foo.example.com" ["2.2.2.2"])) ∧
      r.Typ = (testEndpoint "foo.example.com" ["2.2.2.2"]).RecordType ∧
      r.Content ∈ (testEndpoint "foo.example.com" ["2.2.2.2"]).Targets) ∧
    (ApplyChanges exampleProvider
        { UpdateOld := [testEndpoint "foo.example.com" ["1.1.1.1"]],
          UpdateNew := [testEndpoint "foo.example.com" ["2.2.2.2"]] }).provider.db "example.com"
      = [{ ID := "0", Name := "foo", Typ := "A", Content := "2.2.2.2", TTL := 60 }] :=
  ⟨(ApplyChanges_update_fallback exampleProvider (testEndpoint "foo.example.com" ["1.1.1.1"])
      (testEndpoint "foo.example.com" ["2.2.2.2"]) (by decide) (by decide) rfl (by decide)).1,
   (ApplyChanges_update_fallback exampleProvider (testEndpoint "foo.example.com" ["1.1.1.1"])
      (testEndpoint "foo.example.com" ["2.2.2.2"]) (by decide) (by decide) rfl (by decide)).2,
   by decide⟩

/-! ## The change applier: record IDs -/

end Inwx
